import Mathlib

/-!
# Verification of the conrod `TextBox` text-editing core

Shallow embedding of `src/widget/text_box.rs` (`Widget::update` for `TextBox`),
the text-editing and cursor-addressing engine described by the specification.

Modelling conventions:

* The text buffer is a `List Char`; byte offsets and character offsets coincide
  in the model (the layout oracle is character based), so `LineInfo` stores
  character ranges.
* `f64` scalars (widths, heights, coordinates) are modelled as exact `Int`
  arithmetic: every claim under verification depends only on ordering and
  equality of scalar expressions, never on fractional values, and `Int`
  keeps every definition kernel-computable.
* Rust `usize` is `Nat`; the one subtraction that can underflow
  (`idx - 1` in the caret-Backspace arm) is modelled with explicit wrapping
  arithmetic modulo `2^64` (release-mode Rust semantics).
* A Rust panic (`.expect(..)`) is modelled by returning `none` from the event
  step; all non-panicking arms return `some`.
* The `text::` module (line layout, cursor-index algebra, geometry helpers) and
  the `utils` module are not part of the sources under verification; they are
  modelled from the specification and marked `Modelled from the spec:` below.
-/

abbrev Scalar := Int

/-- The absolute value used by the geometry scans (`f64::abs`). -/
def sabs (x : Scalar) : Scalar := if x < 0 then -x else x

/-- The size of the Rust `usize` value space, used for the one wrapping
subtraction in the Backspace handler. -/
def USIZE : Nat := 2 ^ 64

/-- Release-mode Rust `idx - 1` on `usize`: wrapping subtraction modulo `2^64`. -/
def usizeSub1 (n : Nat) : Nat := (n + (USIZE - 1)) % USIZE

/-- Modelled from the spec: `text::line::Info` — one wrapped line; holds the
half-open character range of that line within the buffer together with its
measured width (the model identifies byte and character offsets). -/
structure LineInfo where
  startChar : Nat
  endChar : Nat
  width : Scalar
deriving DecidableEq, Repr

/-- The `text::cursor::Index` type: a 2-D (line, char) address into the wrapped layout. -/
structure CursorIndex where
  line : Nat
  char : Nat
deriving DecidableEq, Repr

/-- Modelled from the spec: the linear (lexicographic) order on cursor indices
used by `std::cmp::min`/`max` on `text::cursor::Index`. -/
def cursorLe (a b : CursorIndex) : Bool :=
  decide (a.line < b.line ∨ (a.line = b.line ∧ a.char ≤ b.char))

/-- Rust `std::cmp::min` on cursor indices. -/
def cmin (a b : CursorIndex) : CursorIndex := if cursorLe a b then a else b

/-- Rust `std::cmp::max` on cursor indices. -/
def cmax (a b : CursorIndex) : CursorIndex := if cursorLe a b then b else a

/-- The `Cursor` stored in the widget `State`: a caret or an anchored selection
(`start` is the anchor; the pair is not pre-sorted). -/
inductive Cursor where
  | Idx (idx : CursorIndex)
  | Selection (start stop : CursorIndex)
deriving DecidableEq, Repr

/-- The `Drag` mode stored in the widget `State`. -/
inductive Drag where
  | Selecting
  | MoveSelection
deriving DecidableEq, Repr

/-- The external style/geometry parameters of one update pass: the glyph-width
oracle (already specialised to the pass's font size), font size, line spacing,
and the available rectangle. `rectXY` is the rectangle's centre (used to
translate relative pointer coordinates), `rectLeft`/`rectTop` its edges. -/
structure Env where
  charW : Char → Scalar
  fontSize : Scalar
  lineSpacing : Scalar
  rectW : Scalar
  rectH : Scalar
  rectXY : Scalar × Scalar
  rectLeft : Scalar
  rectTop : Scalar

/-- The helper `utils::vec2_add`. -/
def vadd (a b : Scalar × Scalar) : Scalar × Scalar := (a.1 + b.1, a.2 + b.2)

/-- Modelled from the spec: the Line Layout Engine (`text::line::infos` plus a
wrap policy), absent from `src/`. Character wrapping: a line is extended while
its width stays within `maxW`; a character that would exceed the budget starts
a new line (a line always takes at least one character). Auxiliary recursion
over the remaining text, carrying the current line's start offset, the current
position and the accumulated width. -/
def wrapAux (charW : Char → Scalar) (maxW : Scalar) :
    List Char → Nat → Nat → Scalar → List LineInfo
  | [], start, pos, w => if start = pos then [] else [⟨start, pos, w⟩]
  | c :: rest, start, pos, w =>
    let cw := charW c
    if start = pos then
      wrapAux charW maxW rest start (pos + 1) cw
    else if w + cw ≤ maxW then
      wrapAux charW maxW rest start (pos + 1) (w + cw)
    else
      ⟨start, pos, w⟩ :: wrapAux charW maxW rest pos (pos + 1) cw

/-- Modelled from the spec: the line-info sequence for a text under the pass's
styling; pure function of the text (the other inputs live in `env`). The empty
text yields no lines. -/
def layoutText (env : Env) (text : List Char) : List LineInfo :=
  wrapAux env.charW env.rectW text 0 0 0

/-- Modelled from the spec: `text::char::index_after_cursor` — the linear
character offset immediately following the cursor index, or `none` when the
index is out of range for the layout. -/
def index_after_cursor (infos : List LineInfo) (idx : CursorIndex) : Option Nat :=
  (infos.get? idx.line).bind fun info =>
    if info.startChar + idx.char ≤ info.endChar then some (info.startChar + idx.char)
    else none

/-- Auxiliary scan for `index_before_char`, carrying the current line number. -/
def indexBeforeCharAux (o : Nat) : Nat → List LineInfo → Option CursorIndex
  | _, [] => none
  | i, info :: rest =>
    if info.startChar ≤ o ∧ o ≤ info.endChar then some ⟨i, o - info.startChar⟩
    else indexBeforeCharAux o (i + 1) rest

/-- Modelled from the spec: `text::cursor::index_before_char` — the cursor
index for a linear character offset; the first line whose range contains the
offset wins (end of current line is preferred over start of next line), `none`
when the offset exceeds the layout. -/
def index_before_char (infos : List LineInfo) (o : Nat) : Option CursorIndex :=
  indexBeforeCharAux o 0 infos

/-- Modelled from the spec: `text::cursor::Index::previous` — the adjacent
cursor position to the left, stepping to the end of the previous line at a
line start, `none` at the very first position. -/
def cursorPrevious (infos : List LineInfo) (idx : CursorIndex) : Option CursorIndex :=
  if 0 < idx.char then some ⟨idx.line, idx.char - 1⟩
  else if 0 < idx.line then
    (infos.get? (idx.line - 1)).map fun info => ⟨idx.line - 1, info.endChar - info.startChar⟩
  else none

/-- Modelled from the spec: `text::cursor::Index::next` — the adjacent cursor
position to the right, stepping to the start of the next line past the last
character, `none` at the very last position. -/
def cursorNext (infos : List LineInfo) (idx : CursorIndex) : Option CursorIndex :=
  (infos.get? idx.line).bind fun info =>
    if idx.char < info.endChar - info.startChar then some ⟨idx.line, idx.char + 1⟩
    else (infos.get? (idx.line + 1)).map fun _ => (⟨idx.line + 1, 0⟩ : CursorIndex)

/-- Modelled from the spec: `text::height` — total rendered height from line
count, font size and line spacing. -/
def textHeight (numLines : Nat) (fontSize lineSpacing : Scalar) : Scalar :=
  if numLines = 0 then 0
  else (numLines : Scalar) * fontSize + ((numLines - 1 : Nat) : Scalar) * lineSpacing

/-- Modelled from the spec: a vertical `Range` (conrod `Range`) with its
`middle` and `is_over` operations. -/
structure Rng where
  lo : Scalar
  hi : Scalar
deriving DecidableEq, Repr

/-- The middle of a range. -/
def Rng.middle (r : Rng) : Scalar := (r.lo + r.hi) / 2

/-- Whether a coordinate lies within the range (`Range::is_over`). -/
def Rng.isOver (r : Rng) (y : Scalar) : Bool :=
  decide (min r.lo r.hi ≤ y ∧ y ≤ max r.lo r.hi)

/-- The slice of the buffer covered by one line info (`&text[info.byte_range()]`). -/
def lineSlice (text : List Char) (info : LineInfo) : List Char :=
  (text.drop info.startChar).take (info.endChar - info.startChar)

/-- Cumulative glyph-boundary x-positions after each character of a line. -/
def lineXsAux (charW : Char → Scalar) (x : Scalar) : List Char → List Scalar
  | [] => []
  | c :: rest => (x + charW c) :: lineXsAux charW (x + charW c) rest

/-- Modelled from the spec: the cursor x-positions of one line — the line's
start x followed by one boundary per character; always non-empty. -/
def lineXs (charW : Char → Scalar) (startX : Scalar) (l : List Char) : List Scalar :=
  startX :: lineXsAux charW startX l

/-- Modelled from the spec: the vertical extent of line `i` (top-aligned stack
of lines of height `fontSize` separated by `lineSpacing`). -/
def lineYRange (env : Env) (i : Nat) : Rng :=
  ⟨env.rectTop - ((i : Scalar) + 1) * env.fontSize - (i : Scalar) * env.lineSpacing,
   env.rectTop - (i : Scalar) * (env.fontSize + env.lineSpacing)⟩

/-- Modelled from the spec: `text::cursor::xys_per_line` — for every line its
cursor x-positions and its vertical range. Each x-list is non-empty by
construction (it starts with the line's start x). -/
def xysPerLine (env : Env) (text : List Char) (infos : List LineInfo) :
    List (List Scalar × Rng) :=
  (List.enumFrom 0 infos).map fun p =>
    (lineXs env.charW env.rectLeft (lineSlice text p.2), lineYRange env p.1)

/-- The vertical scan of `closest_cursor_index_and_xy` (source lines 249-264):
walk the remaining lines in order, stop as soon as a line vertically contains
the point or as soon as the vertical distance stops strictly decreasing. -/
def closestLineAux (y : Scalar) (bestIdx : Nat) (bestDiff : Scalar) :
    List (Nat × Rng) → Nat
  | [] => bestIdx
  | (i, r) :: rest =>
    if r.isOver y then i
    else
      let diff := sabs (y - r.middle)
      if diff < bestDiff then closestLineAux y i diff rest
      else bestIdx

/-- The running best of the per-glyph horizontal scan
(`struct Closest { idx, x, diff }` in the source). -/
structure ClosestX where
  idx : Nat
  x : Scalar
  diff : Scalar
deriving DecidableEq, Repr

/-- The horizontal scan of `closest_cursor_index_and_xy` (source lines
277-284): walk the remaining x-positions in order, keeping the closest so far
and stopping at the first position whose distance is not strictly smaller. -/
def closestXAux (px : Scalar) (best : ClosestX) : List (Nat × Scalar) → ClosestX
  | [] => best
  | (i, x) :: rest =>
    let diff := sabs (px - x)
    if diff < best.diff then closestXAux px ⟨i, x, diff⟩ rest
    else best

/-- The per-line part of the horizontal scan: seed the running best with the
first x (the source unwraps it — `xs` always yields at least one `x`) and scan
the rest. `none` only on an empty x-list, which `xysPerLine` never produces. -/
def closestXOnLine (px : Scalar) : List Scalar → Option ClosestX
  | [] => none
  | x0 :: rest => some (closestXAux px ⟨0, x0, sabs (px - x0)⟩ (List.enumFrom 1 rest))

/-- The `closest_cursor_index_and_xy` closure of `Widget::update` (source
lines 233-291): pick the vertically closest line, then the horizontally
closest cursor x-position on it. `none` when there are no lines. -/
def closest_cursor_index_and_xy (xy : Scalar × Scalar)
    (xys : List (List Scalar × Rng)) : Option (CursorIndex × (Scalar × Scalar)) :=
  match xys with
  | [] => none
  | (_, firstY) :: rest =>
    let lineIdx := closestLineAux xy.2 0 (sabs (xy.2 - firstY.middle))
      (List.enumFrom 1 (rest.map Prod.snd))
    match xys.get? lineIdx with
    | none => none
    | some (xs, lineY) =>
      match closestXOnLine xy.1 xs with
      | none => none
      | some best => some (⟨lineIdx, best.idx⟩, (best.x, lineY.middle))

/-- Mouse buttons (only Left is distinguished by the handler). -/
inductive MouseButton where
  | Left
  | OtherButton
deriving DecidableEq, Repr

/-- The keyboard modifiers of an event; only the Ctrl bit is inspected. -/
structure Modifiers where
  ctrl : Bool
deriving DecidableEq, Repr

/-- The keys the handler distinguishes. -/
inductive Key where
  | Backspace
  | LeftKey
  | RightKey
  | UpKey
  | DownKey
  | A
  | E
  | OtherKey
deriving DecidableEq, Repr

/-- The `event::Button` of a press or release: a mouse button with the press position relative to the
widget, or a keyboard key. -/
inductive Button where
  | Mouse (b : MouseButton) (relXY : Scalar × Scalar)
  | Keyboard (k : Key)
deriving DecidableEq, Repr

/-- One widget input event of the per-pass batch. -/
inductive Event where
  | Press (button : Button) (mods : Modifiers)
  | Release (button : Button)
  | Text (string : List Char) (mods : Modifiers)
  | DragEvt (button : MouseButton) (toXY : Scalar × Scalar)
  | OtherEvent
deriving DecidableEq, Repr

/-- The state threaded through the event fold of one update pass: the borrowed
text buffer, the local `cursor` and `drag` variables, the cached line infos,
and the log of every `state.update` that replaced the cached line infos (each
entry is the pair of old and new value). -/
structure EState where
  text : List Char
  cursor : Cursor
  drag : Option Drag
  lineInfos : List LineInfo
  liWrites : List (List LineInfo × List LineInfo)
deriving DecidableEq, Repr

/-- The normalized `(cursor_start, cursor_end)` pair of the Text handler
(source lines 494-498). -/
def cursorStartEnd (c : Cursor) : CursorIndex × CursorIndex :=
  match c with
  | .Idx i => (i, i)
  | .Selection a b => (cmin a b, cmax a b)

/-- The `(new_text, new_cursor)` computation of the Text handler (source lines
493-524): resolve the replaced span against the layout of the current text
with `unwrap_or(0)` fallbacks, splice the string in, and place the caret after
it with an `unwrap_or`-fallback of `(line 0, char = inserted length)`. -/
def insertText (env : Env) (text : List Char) (cursor : Cursor) (str : List Char) :
    List Char × Cursor :=
  let se := cursorStartEnd cursor
  let infos := layoutText env text
  let startIdx := (index_after_cursor infos se.1).getD 0
  let endIdx := (index_after_cursor infos se.2).getD 0
  let charCount := str.length
  let newCursorCharIdx := startIdx + charCount
  let newCursorIdx := (index_before_char infos newCursorCharIdx).getD ⟨0, charCount⟩
  (text.take startIdx ++ str ++ text.drop endIdx, .Idx newCursorIdx)

/-- The arrow-key artifact filter of the Text handler (source lines 488-491):
exactly the four one-character private-use strings are skipped. -/
def isArrowArtifact (str : List Char) : Bool :=
  str = [Char.ofNat 0xF700] || str = [Char.ofNat 0xF701] ||
  str = [Char.ofNat 0xF702] || str = [Char.ofNat 0xF703]

/-- The complete rejection condition of the Text handler (source lines
476-491): Ctrl held, empty string (the source tests emptiness twice), or an
arrow-key artifact. -/
def textRejected (str : List Char) (mods : Modifiers) : Bool :=
  (mods.ctrl || str.length == 0 || str.head?.isNone) || isArrowArtifact str

/-- The insert-plus-height-guard tail of the Text handler (source lines
493-536): compute the prospective text and cursor, re-layout the prospective
text, and commit text, cursor and line infos together only when the rendered
height is strictly below the rectangle's height. -/
def textInsertGuard (env : Env) (s : EState) (str : List Char) : EState :=
  let tc := insertText env s.text s.cursor str
  let newLineInfos := layoutText env tc.1
  let height := textHeight newLineInfos.length env.fontSize env.lineSpacing
  if height < env.rectH then
    { s with
        text := tc.1
        cursor := tc.2
        lineInfos := newLineInfos
        liWrites := s.liWrites ++ [(s.lineInfos, newLineInfos)] }
  else s

/-- The `event::Widget::Text` arm (source lines 475-537). -/
def textStep (env : Env) (s : EState) (str : List Char) (mods : Modifiers) : EState :=
  if mods.ctrl || str.length == 0 || str.head?.isNone then s
  else if isArrowArtifact str then s
  else textInsertGuard env s str

/-- The left-mouse-press arm (source lines 311-322): resolve the closest
cursor index under the pointer (keeping the cursor when there is none) and
enter `Selecting` drag mode. -/
def mousePressStep (env : Env) (s : EState) (relXY : Scalar × Scalar) : EState :=
  let absXY := vadd relXY env.rectXY
  let closest := closest_cursor_index_and_xy absXY (xysPerLine env s.text s.lineInfos)
  let s1 := match closest with
    | some ci => { s with cursor := Cursor.Idx ci.1 }
    | none => s
  { s1 with drag := some Drag.Selecting }

/-- The `Key::Backspace` arm (source lines 329-387). The caret arm is guarded
by two fallible conversions (a failed conversion is a no-op); the selection
arm converts with `.expect(..)`, modelled as `none` on failure. -/
def backspaceStep (env : Env) (s : EState) : Option EState :=
  match s.cursor with
  | .Idx cursorIdx =>
    match index_after_cursor s.lineInfos cursorIdx with
    | some idx =>
      let idxToRemove := usizeSub1 idx
      match index_before_char s.lineInfos idxToRemove with
      | some newCursorIdx =>
        let newText := s.text.take idxToRemove ++ s.text.drop idx
        let newInfos := layoutText env newText
        some { s with
            cursor := .Idx newCursorIdx
            text := newText
            lineInfos := newInfos
            liWrites := s.liWrites ++ [(s.lineInfos, newInfos)] }
      | none => some s
    | none => some s
  | .Selection a b =>
    match index_after_cursor s.lineInfos a, index_after_cursor s.lineInfos b with
    | some si, some ei =>
      let p := if si ≤ ei then (si, ei) else (ei, si)
      let newCursorCharIdx := if p.1 > 0 then p.1 else 0
      match index_before_char s.lineInfos newCursorCharIdx with
      | some newCursorIdx =>
        let newText := s.text.take p.1 ++ s.text.drop p.2
        let newInfos := layoutText env newText
        some { s with
            cursor := .Idx newCursorIdx
            text := newText
            lineInfos := newInfos
            liWrites := s.liWrites ++ [(s.lineInfos, newInfos)] }
      | none => none
    | _, _ => none

/-- The `Key::Left` arm (source lines 389-410). -/
def leftKeyStep (s : EState) (mods : Modifiers) : EState :=
  if mods.ctrl then s
  else match s.cursor with
    | .Idx ci => { s with cursor := .Idx ((cursorPrevious s.lineInfos ci).getD ci) }
    | .Selection a b => { s with cursor := .Idx (cmin a b) }

/-- The `Key::Right` arm (source lines 412-433). -/
def rightKeyStep (s : EState) (mods : Modifiers) : EState :=
  if mods.ctrl then s
  else match s.cursor with
    | .Idx ci => { s with cursor := .Idx ((cursorNext s.lineInfos ci).getD ci) }
    | .Selection a b => { s with cursor := .Idx (cmax a b) }

/-- The `Key::A` arm (source lines 440-453): on Ctrl+A, select from the origin
to the cursor index of the total character count, converting with
`.expect(..)` (modelled as `none` on failure). -/
def ctrlAStep (env : Env) (s : EState) (mods : Modifiers) : Option EState :=
  if mods.ctrl then
    match index_before_char (layoutText env s.text) s.text.length with
    | some e => some { s with cursor := .Selection ⟨0, 0⟩ e }
    | none => none
  else some s

/-- Keyboard press dispatch (source lines 325-462). Up, Down and Ctrl+E are
wired but have no effect. -/
def keyPressStep (env : Env) (s : EState) (k : Key) (mods : Modifiers) : Option EState :=
  match k with
  | .Backspace => backspaceStep env s
  | .LeftKey => some (leftKeyStep s mods)
  | .RightKey => some (rightKeyStep s mods)
  | .UpKey => some s
  | .DownKey => some s
  | .A => ctrlAStep env s mods
  | .E => some s
  | .OtherKey => some s

/-- The `event::Widget::Release` arm (source lines 468-473). -/
def releaseStep (s : EState) : Button → EState
  | .Mouse .Left _ => { s with drag := none }
  | _ => s

/-- The `event::Widget::Drag` arm (source lines 540-569): while `Selecting`,
extend the selection from the anchor to the closest cursor index under the
pointer (no-op when it cannot be resolved); `MoveSelection` is reserved. -/
def dragStep (env : Env) (s : EState) (toXY : Scalar × Scalar) : EState :=
  match s.drag with
  | some .Selecting =>
    let startCursorIdx := match s.cursor with
      | .Idx i => i
      | .Selection a _ => a
    let absXY := vadd toXY env.rectXY
    match closest_cursor_index_and_xy absXY (xysPerLine env s.text s.lineInfos) with
    | some e => { s with cursor := .Selection startCursorIdx e.1 }
    | none => s
  | some .MoveSelection => s
  | none => s

/-- One event of the per-pass fold (the `match widget_event` of source lines
302-573). `none` models a panic. -/
def stepEvent (env : Env) (s : EState) : Event → Option EState
  | .Press (.Mouse .Left relXY) _ => some (mousePressStep env s relXY)
  | .Press (.Mouse .OtherButton _) _ => some s
  | .Press (.Keyboard k) mods => keyPressStep env s k mods
  | .Release button => some (releaseStep s button)
  | .Text str mods => some (textStep env s str mods)
  | .DragEvt .Left toXY => some (dragStep env s toXY)
  | .DragEvt .OtherButton _ => some s
  | .OtherEvent => some s

/-- The event batch processed strictly in arrival order (the `'events` loop). -/
def foldEvents (env : Env) : List Event → EState → Option EState
  | [], s => some s
  | e :: es, s => (stepEvent env s e).bind (foldEvents env es)

/-- The widget state cached between passes (the fields the engine mutates). -/
structure WidgetState where
  cursor : Cursor
  drag : Option Drag
  lineInfos : List LineInfo
deriving DecidableEq, Repr

/-- The start-of-pass re-layout (source lines 213-228): recompute the line
infos from the borrowed text and replace the cache only when the new sequence
differs (`utils::write_if_different`), logging the replacement. -/
def initEState (env : Env) (t0 : List Char) (st : WidgetState) : EState :=
  let newInfos := layoutText env t0
  if newInfos = st.lineInfos then ⟨t0, st.cursor, st.drag, st.lineInfos, []⟩
  else ⟨t0, st.cursor, st.drag, newInfos, [(st.lineInfos, newInfos)]⟩

/-- The observable write activity of one pass: every line-info cache
replacement (with old and new value), and how many times the stored cursor
and drag fields were written back. -/
structure PassLog where
  lineInfoWrites : List (List LineInfo × List LineInfo)
  cursorWrites : Nat
  dragWrites : Nat
deriving DecidableEq, Repr

/-- One full update pass over the editing core (source lines 213-581): the
start-of-pass re-layout diff, the in-order event fold, and the end-of-pass
write-back of cursor and drag only when they changed (source lines 575-581).
Returns the final text, the new widget state and the pass's write log;
`none` models a panic. -/
def runPass (env : Env) (events : List Event) (t0 : List Char) (st : WidgetState) :
    Option (List Char × WidgetState × PassLog) :=
  (foldEvents env events (initEState env t0 st)).map fun s =>
    (s.text, ⟨s.cursor, s.drag, s.lineInfos⟩,
     ⟨s.liWrites, if s.cursor = st.cursor then 0 else 1, if s.drag = st.drag then 0 else 1⟩)

/-- A concrete monospace environment for witnesses: every glyph 1 unit wide,
font size 1, no line spacing, a 100-unit-wide and 10-unit-high rectangle. -/
def envM : Env :=
  { charW := fun _ => 1, fontSize := 1, lineSpacing := 0,
    rectW := 100, rectH := 10, rectXY := (0, 0), rectLeft := 0, rectTop := 5 }


/-! ## Basic properties of the modelled layout and cursor algebra -/

theorem wrapAux_ne_nil (charW : Char → Scalar) (maxW : Scalar) :
    ∀ (l : List Char) (start pos : Nat) (w : Scalar), start < pos →
      wrapAux charW maxW l start pos w ≠ [] := by
  intro l
  induction l with
  | nil =>
    intro start pos w h
    simp only [wrapAux]
    rw [if_neg (Nat.ne_of_lt h)]
    simp
  | cons c rest ih =>
    intro start pos w h
    simp only [wrapAux]
    rw [if_neg (Nat.ne_of_lt h)]
    by_cases hw : w + charW c ≤ maxW
    · rw [if_pos hw]
      exact ih start (pos + 1) (w + charW c) (Nat.lt_succ_of_lt h)
    · rw [if_neg hw]
      simp

theorem layoutText_ne_nil (env : Env) (text : List Char) (h : text ≠ []) :
    layoutText env text ≠ [] := by
  match text, h with
  | c :: rest, _ =>
    show wrapAux env.charW env.rectW (c :: rest) 0 0 0 ≠ []
    simp only [wrapAux, if_pos rfl]
    exact wrapAux_ne_nil env.charW env.rectW rest 0 1 (env.charW c) Nat.zero_lt_one

theorem layoutText_nil (env : Env) : layoutText env [] = [] := rfl

theorem indexBeforeCharAux_eq_none (o : Nat) :
    ∀ (k : Nat) (l : List LineInfo), (∀ info ∈ l, info.endChar < o) →
      indexBeforeCharAux o k l = none := by
  intro k l
  induction l generalizing k with
  | nil => intro _; rfl
  | cons info rest ih =>
    intro h
    have h1 : info.endChar < o := h info (List.mem_cons_self _ _)
    simp only [indexBeforeCharAux]
    rw [if_neg]
    · exact ih (k + 1) fun i hi => h i (List.mem_cons_of_mem _ hi)
    · rintro ⟨-, h2⟩
      exact absurd h2 (Nat.not_le_of_lt h1)

theorem usizeSub1_zero : usizeSub1 0 = USIZE - 1 := by
  unfold usizeSub1
  rw [Nat.zero_add]
  exact Nat.mod_eq_of_lt (Nat.sub_lt (by norm_num [USIZE]) Nat.one_pos)

/-! ## C2 — Backspace with a caret at the very start is a no-op -/

/-- C2: Backspace with a caret cursor at `(line 0, char 0)` leaves the text
buffer, the cursor and the line-info cache unchanged, and does not abort: the
unguarded `idx - 1` wraps to `2^64 - 1` (release-mode `usize` semantics), and
`index_before_char` cannot resolve that offset, so the deleting branch is
skipped. Hypotheses: line 0 of the cache (when present) starts at offset 0 and
every cached line ends strictly below `usize::MAX` — both hold for any layout
of a real buffer. -/
theorem backspace_at_origin_is_noop (env : Env) (s : EState) (mods : Modifiers)
    (hc : s.cursor = .Idx ⟨0, 0⟩)
    (hhead : ∀ info ∈ s.lineInfos.take 1, info.startChar = 0)
    (hbound : ∀ info ∈ s.lineInfos, info.endChar + 1 < USIZE) :
    stepEvent env s (.Press (.Keyboard .Backspace) mods) = some s := by
  obtain ⟨t, c, d, li, wl⟩ := s
  simp only at hc hhead hbound
  subst hc
  show backspaceStep env ⟨t, .Idx ⟨0, 0⟩, d, li, wl⟩ = _
  cases li with
  | nil => rfl
  | cons info rest =>
    have h0 : info.startChar = 0 := hhead info (by simp)
    have hafter : index_after_cursor (info :: rest) ⟨0, 0⟩ = some 0 := by
      simp [index_after_cursor, h0]
    have hbefore : index_before_char (info :: rest) (usizeSub1 0) = none := by
      apply indexBeforeCharAux_eq_none
      intro i hi
      rw [usizeSub1_zero]
      exact Nat.lt_sub_of_add_lt (hbound i hi)
    simp [backspaceStep, hafter, hbefore]

/-- C2 witness: a concrete no-op backspace at the origin of `"hi"`. -/
theorem backspace_at_origin_is_noop_witness :
    stepEvent envM ⟨['h', 'i'], .Idx ⟨0, 0⟩, none, [⟨0, 2, 2⟩], []⟩
        (.Press (.Keyboard .Backspace) ⟨false⟩) =
      some ⟨['h', 'i'], .Idx ⟨0, 0⟩, none, [⟨0, 2, 2⟩], []⟩ :=
  backspace_at_origin_is_noop envM _ ⟨false⟩ rfl (by decide) (by decide)

/-! ## The Text handler's filter -/

theorem textStep_of_rejected (env : Env) (s : EState) (str : List Char)
    (mods : Modifiers) (h : textRejected str mods = true) :
    textStep env s str mods = s := by
  unfold textRejected at h
  rcases Bool.or_eq_true_iff.mp h with hx | hy
  · unfold textStep
    rw [if_pos hx]
  · unfold textStep
    by_cases hx : (mods.ctrl || str.length == 0 || str.head?.isNone) = true
    · rw [if_pos hx]
    · rw [if_neg hx, if_pos hy]

theorem textStep_of_not_rejected (env : Env) (s : EState) (str : List Char)
    (mods : Modifiers) (h : textRejected str mods = false) :
    textStep env s str mods = textInsertGuard env s str := by
  unfold textRejected at h
  obtain ⟨hx, hy⟩ := Bool.or_eq_false_iff.mp h
  unfold textStep
  rw [if_neg (by simp [hx]), if_neg (by simp [hy])]

/-! ## C1 — Insert is all-or-nothing under the height guard -/

/-- C1: for every text-input event that passes the filter, if the rendered
height of the prospective new text (line count, font size, line spacing) is
not strictly below the rectangle's height then text, cursor and line-info
cache are all left exactly as before the event; if it is strictly below, all
three are updated together (and the line-info replacement is logged). -/
theorem text_insert_all_or_nothing (env : Env) (s : EState) (str : List Char)
    (mods : Modifiers) (hrej : textRejected str mods = false) :
    (¬ textHeight (layoutText env (insertText env s.text s.cursor str).1).length
        env.fontSize env.lineSpacing < env.rectH →
      stepEvent env s (.Text str mods) = some s) ∧
    (textHeight (layoutText env (insertText env s.text s.cursor str).1).length
        env.fontSize env.lineSpacing < env.rectH →
      stepEvent env s (.Text str mods) = some
        { s with
            text := (insertText env s.text s.cursor str).1
            cursor := (insertText env s.text s.cursor str).2
            lineInfos := layoutText env (insertText env s.text s.cursor str).1
            liWrites := s.liWrites ++
              [(s.lineInfos, layoutText env (insertText env s.text s.cursor str).1)] }) := by
  have hstep : stepEvent env s (.Text str mods) = some (textStep env s str mods) := rfl
  rw [hstep, textStep_of_not_rejected env s str mods hrej]
  constructor
  · intro hh
    simp [textInsertGuard, hh]
  · intro hh
    simp [textInsertGuard, hh]

/-- C1 witness: inserting `"hi"` into an empty box with ample height commits
text, cursor and layout together. -/
theorem text_insert_all_or_nothing_witness :
    stepEvent envM ⟨[], .Idx ⟨0, 0⟩, none, [], []⟩ (.Text ['h', 'i'] ⟨false⟩) = some
      { (⟨[], .Idx ⟨0, 0⟩, none, [], []⟩ : EState) with
          text := (insertText envM [] (.Idx ⟨0, 0⟩) ['h', 'i']).1
          cursor := (insertText envM [] (.Idx ⟨0, 0⟩) ['h', 'i']).2
          lineInfos := layoutText envM (insertText envM [] (.Idx ⟨0, 0⟩) ['h', 'i']).1
          liWrites := [(([] : List LineInfo),
            layoutText envM (insertText envM [] (.Idx ⟨0, 0⟩) ['h', 'i']).1)] } :=
  (text_insert_all_or_nothing envM ⟨[], .Idx ⟨0, 0⟩, none, [], []⟩ ['h', 'i'] ⟨false⟩
    (by decide)).2 (by decide)

/-! ## C4 — The text-input rejection condition -/

/-- The rejection condition exactly as claim C4 words it (for comparison with
the source condition `textRejected`): the string is empty, or consists solely
of the four private-use characters U+F700..U+F703, or Ctrl is held. -/
def claimTextRejected (str : List Char) (mods : Modifiers) : Bool :=
  str.isEmpty ||
  str.all (fun c => c == Char.ofNat 0xF700 || c == Char.ofNat 0xF701 ||
                    c == Char.ofNat 0xF702 || c == Char.ofNat 0xF703) ||
  mods.ctrl

/-- C4 counterexample: the two-character string `"㷀0㷀0"` (twice
U+F700) consists solely of the four private-use characters, so the claim says
it is rejected; the source filter only skips the four exact one-character
strings, so the event is accepted and actually mutates the buffer. -/
theorem text_filter_claim_counterexample :
    claimTextRejected [Char.ofNat 0xF700, Char.ofNat 0xF700] ⟨false⟩ = true ∧
    textRejected [Char.ofNat 0xF700, Char.ofNat 0xF700] ⟨false⟩ = false ∧
    stepEvent envM ⟨[], .Idx ⟨0, 0⟩, none, [], []⟩
        (.Text [Char.ofNat 0xF700, Char.ofNat 0xF700] ⟨false⟩) =
      some ⟨[Char.ofNat 0xF700, Char.ofNat 0xF700], .Idx ⟨0, 2⟩, none,
            [⟨0, 2, 2⟩], [([], [⟨0, 2, 2⟩])]⟩ := by
  refine ⟨by decide, by decide, by decide⟩

/-- C4 amended: a text-input event is rejected iff Ctrl is held, or the
string is empty, or the string is exactly one of the four one-character
strings U+F700..U+F703; rejected events leave the state untouched and every
other text-input event proceeds to the insert/height-guard path. -/
theorem text_filter_characterization (str : List Char) (mods : Modifiers) :
    (textRejected str mods = true ↔
      (mods.ctrl = true ∨ str = [] ∨ str = [Char.ofNat 0xF700] ∨
       str = [Char.ofNat 0xF701] ∨ str = [Char.ofNat 0xF702] ∨
       str = [Char.ofNat 0xF703])) ∧
    (∀ (env : Env) (s : EState),
      (textRejected str mods = true → stepEvent env s (.Text str mods) = some s) ∧
      (textRejected str mods = false →
        stepEvent env s (.Text str mods) = some (textInsertGuard env s str))) := by
  constructor
  · unfold textRejected isArrowArtifact
    cases str with
    | nil => simp
    | cons c rest =>
      simp [List.head?]
      tauto
  · intro env s
    constructor
    · intro h
      show some (textStep env s str mods) = some s
      rw [textStep_of_rejected env s str mods h]
    · intro h
      show some (textStep env s str mods) = some (textInsertGuard env s str)
      rw [textStep_of_not_rejected env s str mods h]

/-- C4 witness: the single-character artifact U+F700 is rejected as a no-op,
and a plain letter takes the insert path. -/
theorem text_filter_characterization_witness :
    stepEvent envM ⟨[], .Idx ⟨0, 0⟩, none, [], []⟩ (.Text [Char.ofNat 0xF700] ⟨false⟩) =
      some ⟨[], .Idx ⟨0, 0⟩, none, [], []⟩ ∧
    stepEvent envM ⟨[], .Idx ⟨0, 0⟩, none, [], []⟩ (.Text ['a'] ⟨false⟩) =
      some (textInsertGuard envM ⟨[], .Idx ⟨0, 0⟩, none, [], []⟩ ['a']) :=
  ⟨((text_filter_characterization [Char.ofNat 0xF700] ⟨false⟩).2 envM _).1 (by decide),
   ((text_filter_characterization ['a'] ⟨false⟩).2 envM _).2 (by decide)⟩

/-! ## C3 — Reachable abort in the Ctrl+A handler -/

/-- C3 (failing input): pressing Ctrl+A while the buffer is empty reaches the
`.expect("char index was out of range")` of the select-all handler and aborts
(`none` in the model): the layout of the empty text has no lines, so
`index_before_char` cannot resolve the total character count 0. The state is
the widget's own `init_state` with an empty host buffer, so the panicking
branch is reachable, contradicting the claim that no operation can abort. -/
theorem ctrlA_empty_buffer_aborts :
    stepEvent envM ⟨[], .Idx ⟨0, 0⟩, none, [], []⟩ (.Press (.Keyboard .A) ⟨true⟩) =
      none := by decide

/-! ## C6 — Sequential fold and single conditional write-back -/

/-- C6: one update pass folds the event batch strictly in arrival order over
the local `(cursor, drag)` state (the fold equation in the second conjunct),
and the stored cursor and drag fields are each written back exactly once at
the end of the pass when the final value differs from the pass-start value
and zero times otherwise. -/
theorem pass_fold_and_writeback (env : Env) (evs : List Event) (t0 : List Char)
    (st : WidgetState) (s : EState)
    (h : foldEvents env evs (initEState env t0 st) = some s) :
    runPass env evs t0 st = some (s.text, ⟨s.cursor, s.drag, s.lineInfos⟩,
      ⟨s.liWrites, if s.cursor = st.cursor then 0 else 1,
       if s.drag = st.drag then 0 else 1⟩) ∧
    (∀ (s1 : EState) (e : Event) (es : List Event),
      foldEvents env (e :: es) s1 = (stepEvent env s1 e).bind (foldEvents env es)) := by
  constructor
  · unfold runPass
    rw [h]
    rfl
  · intro s1 e es
    rfl

/-- C6 witness: the empty batch writes back nothing. -/
theorem pass_fold_and_writeback_witness :
    runPass envM [] [] ⟨Cursor.Idx ⟨0, 0⟩, none, []⟩ =
      some ([], ⟨Cursor.Idx ⟨0, 0⟩, none, []⟩, ⟨[], 0, 0⟩) :=
  (pass_fold_and_writeback envM [] [] ⟨Cursor.Idx ⟨0, 0⟩, none, []⟩
    (initEState envM [] ⟨Cursor.Idx ⟨0, 0⟩, none, []⟩) rfl).1

/-! ## C9 — Insert offset fallbacks -/

/-- C9: when neither endpoint of the cursor resolves against the freshly
computed layout, the insert still succeeds: both linear offsets fall back to
0, so the string is spliced at the front of the buffer and nothing is
deleted; and when the new caret's linear offset does not resolve either, the
caret falls back to `(line 0, char = inserted length)`. -/
theorem insert_offset_fallbacks (env : Env) (s : EState) (str : List Char)
    (mods : Modifiers)
    (hs : index_after_cursor (layoutText env s.text) (cursorStartEnd s.cursor).1 = none)
    (he : index_after_cursor (layoutText env s.text) (cursorStartEnd s.cursor).2 = none) :
    (insertText env s.text s.cursor str).1 = str ++ s.text ∧
    (index_before_char (layoutText env s.text) str.length = none →
      (insertText env s.text s.cursor str).2 = .Idx ⟨0, str.length⟩) ∧
    (stepEvent env s (.Text str mods)).isSome = true := by
  refine ⟨?_, ?_, rfl⟩
  · simp [insertText, hs, he]
  · intro hb
    simp [insertText, hs, hb]

/-- C9 witness: a caret on a non-existent line 5 of the buffer `"a"`; the
inserted `"xyz"` lands at the front and the caret falls back to
`(line 0, char 3)`. -/
theorem insert_offset_fallbacks_witness :
    (insertText envM ['a'] (.Idx ⟨5, 0⟩) ['x', 'y', 'z']).1 = ['x', 'y', 'z'] ++ ['a'] ∧
    (index_before_char (layoutText envM ['a']) (['x', 'y', 'z'] : List Char).length = none →
      (insertText envM ['a'] (.Idx ⟨5, 0⟩) ['x', 'y', 'z']).2 = .Idx ⟨0, 3⟩) ∧
    (stepEvent envM ⟨['a'], .Idx ⟨5, 0⟩, none, [], []⟩
      (.Text ['x', 'y', 'z'] ⟨false⟩)).isSome = true :=
  insert_offset_fallbacks envM ⟨['a'], .Idx ⟨5, 0⟩, none, [], []⟩ ['x', 'y', 'z'] ⟨false⟩
    (by decide) (by decide)

/-! ## C10 — Left press always enters Selecting -/

/-- C10: a left mouse press always sets the drag mode to `Selecting`, touches
neither the buffer nor the layout cache, and when the closest-cursor lookup
cannot resolve (empty text) the cursor keeps its pre-event value. -/
theorem left_press_selecting (env : Env) (s : EState) (relXY : Scalar × Scalar)
    (mods : Modifiers) :
    stepEvent env s (.Press (.Mouse .Left relXY) mods) =
      some (mousePressStep env s relXY) ∧
    (mousePressStep env s relXY).drag = some Drag.Selecting ∧
    (mousePressStep env s relXY).text = s.text ∧
    (mousePressStep env s relXY).lineInfos = s.lineInfos ∧
    (closest_cursor_index_and_xy (vadd relXY env.rectXY)
        (xysPerLine env s.text s.lineInfos) = none →
      (mousePressStep env s relXY).cursor = s.cursor) := by
  refine ⟨rfl, ?_⟩
  unfold mousePressStep
  rcases hcl : closest_cursor_index_and_xy (vadd relXY env.rectXY)
      (xysPerLine env s.text s.lineInfos) with - | ci
  · simp [hcl]
  · simp [hcl]

/-- C10 witness: a press on an empty buffer enters `Selecting` and leaves the
cursor where it was. -/
theorem left_press_selecting_witness :
    (mousePressStep envM ⟨[], Cursor.Idx ⟨0, 3⟩, none, [], []⟩ (1, 1)).drag =
      some Drag.Selecting ∧
    (mousePressStep envM ⟨[], Cursor.Idx ⟨0, 3⟩, none, [], []⟩ (1, 1)).cursor =
      Cursor.Idx ⟨0, 3⟩ :=
  ⟨(left_press_selecting envM ⟨[], Cursor.Idx ⟨0, 3⟩, none, [], []⟩ (1, 1) ⟨false⟩).2.1,
   (left_press_selecting envM ⟨[], Cursor.Idx ⟨0, 3⟩, none, [], []⟩ (1, 1)
     ⟨false⟩).2.2.2.2 (by decide)⟩

/-! ## C5 — Line-info recomputation and the diffing rule -/

/-- C5 counterexample: replacing the selected `"a"` by `"b"` under a
monospace oracle recomputes a line-info sequence structurally identical to the
cached one, yet the Insert handler still replaces the cache (second entry of
the write log: old value and new value are both `[⟨0, 1, 1⟩]`), so
buffer-mutating operations do not follow the only-replace-when-different rule
of the start-of-pass recomputation. -/
theorem lineinfo_unconditional_replace_counterexample :
    runPass envM [Event.Text ['b'] ⟨false⟩] ['a']
        ⟨.Selection ⟨0, 0⟩ ⟨0, 1⟩, none, []⟩ =
      some (['b'], ⟨.Idx ⟨0, 1⟩, none, [⟨0, 1, 1⟩]⟩,
        ⟨[([], [⟨0, 1, 1⟩]), ([⟨0, 1, 1⟩], [⟨0, 1, 1⟩])], 1, 0⟩) := by decide

theorem mousePressStep_fields (env : Env) (s : EState) (relXY : Scalar × Scalar) :
    (mousePressStep env s relXY).text = s.text ∧
    (mousePressStep env s relXY).lineInfos = s.lineInfos := by
  unfold mousePressStep
  rcases hcl : closest_cursor_index_and_xy (vadd relXY env.rectXY)
      (xysPerLine env s.text s.lineInfos) with - | ci <;> simp [hcl]

theorem dragStep_fields (env : Env) (s : EState) (toXY : Scalar × Scalar) :
    (dragStep env s toXY).text = s.text ∧
    (dragStep env s toXY).lineInfos = s.lineInfos := by
  unfold dragStep
  rcases hd : s.drag with - | d
  · simp
  · cases d
    · rcases hcl : closest_cursor_index_and_xy (vadd toXY env.rectXY)
          (xysPerLine env s.text s.lineInfos) with - | e <;> simp [hcl]
    · simp

theorem backspaceStep_layout_inv (env : Env) (s s' : EState)
    (hinv : s.lineInfos = layoutText env s.text)
    (h : backspaceStep env s = some s') :
    s'.lineInfos = layoutText env s'.text := by
  unfold backspaceStep at h
  rcases hc : s.cursor with ci | ⟨a, b⟩
  · simp only [hc] at h
    rcases ha : index_after_cursor s.lineInfos ci with - | idx
    · simp only [ha] at h
      obtain rfl := Option.some.inj h
      exact hinv
    · simp only [ha] at h
      rcases hb : index_before_char s.lineInfos (usizeSub1 idx) with - | nci
      · simp only [hb] at h
        obtain rfl := Option.some.inj h
        exact hinv
      · simp only [hb] at h
        obtain rfl := Option.some.inj h
        dsimp only
  · simp only [hc] at h
    rcases ha : index_after_cursor s.lineInfos a with - | si
    · simp only [ha] at h
      exact Option.noConfusion h
    · rcases hb : index_after_cursor s.lineInfos b with - | ei
      · simp only [ha, hb] at h
        exact Option.noConfusion h
      · simp only [ha, hb] at h
        rcases hn : index_before_char s.lineInfos
            (if (if si ≤ ei then (si, ei) else (ei, si)).1 > 0
             then (if si ≤ ei then (si, ei) else (ei, si)).1 else 0) with - | nci
        · simp only [hn] at h
          exact Option.noConfusion h
        · simp only [hn] at h
          obtain rfl := Option.some.inj h
          dsimp only

theorem textStep_layout_inv (env : Env) (s : EState) (str : List Char)
    (mods : Modifiers) (hinv : s.lineInfos = layoutText env s.text) :
    (textStep env s str mods).lineInfos = layoutText env (textStep env s str mods).text := by
  unfold textStep
  split
  · exact hinv
  · split
    · exact hinv
    · unfold textInsertGuard
      dsimp only
      split
      · dsimp only
      · exact hinv

theorem stepEvent_layout_inv (env : Env) (s s' : EState) (ev : Event)
    (hinv : s.lineInfos = layoutText env s.text)
    (h : stepEvent env s ev = some s') :
    s'.lineInfos = layoutText env s'.text := by
  cases ev with
  | Press button mods =>
    cases button with
    | Mouse b relXY =>
      cases b with
      | Left =>
        obtain rfl := Option.some.inj h
        obtain ⟨ht, hl⟩ := mousePressStep_fields env s relXY
        rw [ht, hl]
        exact hinv
      | OtherButton =>
        obtain rfl := Option.some.inj h
        exact hinv
    | Keyboard k =>
      cases k with
      | Backspace => exact backspaceStep_layout_inv env s s' hinv h
      | LeftKey =>
        obtain rfl := Option.some.inj h
        unfold leftKeyStep
        split
        · exact hinv
        · split <;> exact hinv
      | RightKey =>
        obtain rfl := Option.some.inj h
        unfold rightKeyStep
        split
        · exact hinv
        · split <;> exact hinv
      | UpKey => obtain rfl := Option.some.inj h; exact hinv
      | DownKey => obtain rfl := Option.some.inj h; exact hinv
      | A =>
        have h2 : ctrlAStep env s mods = some s' := h
        unfold ctrlAStep at h2
        split at h2
        · split at h2
          · obtain rfl := Option.some.inj h2
            exact hinv
          · exact Option.noConfusion h2
        · obtain rfl := Option.some.inj h2
          exact hinv
      | E => obtain rfl := Option.some.inj h; exact hinv
      | OtherKey => obtain rfl := Option.some.inj h; exact hinv
  | Release button =>
    obtain rfl := Option.some.inj h
    unfold releaseStep
    split <;> exact hinv
  | Text str mods =>
    obtain rfl := Option.some.inj h
    exact textStep_layout_inv env s str mods hinv
  | DragEvt b toXY =>
    cases b with
    | Left =>
      obtain rfl := Option.some.inj h
      obtain ⟨ht, hl⟩ := dragStep_fields env s toXY
      rw [ht, hl]
      exact hinv
    | OtherButton => obtain rfl := Option.some.inj h; exact hinv
  | OtherEvent => obtain rfl := Option.some.inj h; exact hinv

theorem foldEvents_layout_inv (env : Env) :
    ∀ (evs : List Event) (s s' : EState), s.lineInfos = layoutText env s.text →
      foldEvents env evs s = some s' → s'.lineInfos = layoutText env s'.text := by
  intro evs
  induction evs with
  | nil =>
    intro s s' hinv h
    obtain rfl := Option.some.inj h
    exact hinv
  | cons e es ih =>
    intro s s' hinv h
    unfold foldEvents at h
    rcases hm : stepEvent env s e with - | sm
    · rw [hm] at h
      exact Option.noConfusion h
    · rw [hm] at h
      exact ih sm s' (stepEvent_layout_inv env s sm e hinv hm) h

theorem initEState_layout (env : Env) (t0 : List Char) (st : WidgetState) :
    (initEState env t0 st).lineInfos = layoutText env (initEState env t0 st).text := by
  unfold initEState
  dsimp only
  split
  · rename_i hcond
    exact hcond.symm
  · rfl

/-- C5 amended: the diffing rule governs the start-of-pass recomputation — if
text and width are unchanged between two passes (the cached sequence equals
the freshly computed layout) an event-free pass performs no line-info
replacement at all — and every buffer-mutating operation recomputes the line
infos from the new text before the pass ends (the cache always leaves the
pass equal to the layout of the final text), but the mutating handlers
replace the cache unconditionally rather than through the diffing rule. -/
theorem pass_layout_recompute_and_diff (env : Env) (evs : List Event)
    (t0 : List Char) (st : WidgetState) (res : List Char × WidgetState × PassLog)
    (h : runPass env evs t0 st = some res) :
    res.2.1.lineInfos = layoutText env res.1 ∧
    (layoutText env t0 = st.lineInfos → evs = [] → res.2.2.lineInfoWrites = []) := by
  constructor
  · unfold runPass at h
    rcases hf : foldEvents env evs (initEState env t0 st) with - | s
    · rw [hf] at h
      exact Option.noConfusion h
    · rw [hf] at h
      obtain rfl := Option.some.inj h
      exact foldEvents_layout_inv env evs (initEState env t0 st) s
        (initEState_layout env t0 st) hf
  · rintro hdiff rfl
    unfold runPass foldEvents at h
    unfold initEState at h
    dsimp only at h
    rw [if_pos hdiff] at h
    obtain rfl := Option.some.inj h
    rfl

/-- C5 amended witness: an event-free pass over an unchanged text replaces
nothing. -/
theorem pass_layout_recompute_and_diff_witness :
    [(⟨0, 1, 1⟩ : LineInfo)] = layoutText envM ['a'] ∧
    (layoutText envM ['a'] = [⟨0, 1, 1⟩] → ([] : List Event) = [] →
      ([] : List (List LineInfo × List LineInfo)) = []) :=
  pass_layout_recompute_and_diff envM [] ['a'] ⟨Cursor.Idx ⟨0, 0⟩, none, [⟨0, 1, 1⟩]⟩
    (['a'], ⟨Cursor.Idx ⟨0, 0⟩, none, [⟨0, 1, 1⟩]⟩, ⟨[], 0, 0⟩) (by decide)

/-! ## C8 — Stop-at-increase tie-break in the per-glyph scan -/

/-- C8: the per-glyph horizontal scan stops at the first x-position whose
distance to the pointer is not strictly smaller than the best so far and
keeps the earlier best; in particular, at an exactly equal distance between
two adjacent glyph boundaries the earlier (first-encountered, leftmost)
boundary wins. -/
theorem glyph_scan_first_wins (px : Scalar) (best : ClosestX) (i : Nat)
    (x : Scalar) (rest : List (Nat × Scalar)) (h : best.diff ≤ sabs (px - x)) :
    closestXAux px best ((i, x) :: rest) = best := by
  unfold closestXAux
  dsimp only
  rw [if_neg (not_lt.mpr h)]

/-- C8 witness: pointer at 1, best so far the boundary at 0 (distance 1), next
boundary at 2 (distance also 1): the scan stops and the earlier boundary
wins. -/
theorem glyph_scan_first_wins_witness :
    closestXAux 1 ⟨0, 0, 1⟩ [(1, 2)] = ⟨0, 0, 1⟩ :=
  glyph_scan_first_wins 1 ⟨0, 0, 1⟩ 1 2 [] (by decide)

/-! ## C7 — The closest-cursor lookup resolves exactly the non-empty texts -/

theorem fst_lt_of_mem_enumFrom {α : Type _} :
    ∀ (l : List α) (k : Nat) (p : Nat × α), p ∈ List.enumFrom k l →
      p.1 < k + l.length := by
  intro l
  induction l with
  | nil =>
    intro k p h
    simp [List.enumFrom] at h
  | cons a rest ih =>
    intro k p h
    rw [List.enumFrom] at h
    rcases List.mem_cons.mp h with h1 | h2
    · subst h1
      simp
    · have := ih (k + 1) p h2
      simp only [List.length_cons]
      omega

theorem closestLineAux_lt (y : Scalar) (n : Nat) :
    ∀ (l : List (Nat × Rng)) (b : Nat) (d : Scalar), b < n →
      (∀ p ∈ l, p.1 < n) → closestLineAux y b d l < n := by
  intro l
  induction l with
  | nil =>
    intro b d hb _
    exact hb
  | cons p rest ih =>
    intro b d hb hl
    obtain ⟨i, r⟩ := p
    unfold closestLineAux
    dsimp only
    split
    · exact hl (i, r) (List.mem_cons_self _ _)
    · split
      · exact ih i _ (hl (i, r) (List.mem_cons_self _ _))
          fun q hq => hl q (List.mem_cons_of_mem _ hq)
      · exact hb

theorem xysPerLine_length (env : Env) (text : List Char) (infos : List LineInfo) :
    (xysPerLine env text infos).length = infos.length := by
  simp [xysPerLine]

theorem xysPerLine_fst_ne_nil (env : Env) (text : List Char)
    (infos : List LineInfo) :
    ∀ p ∈ xysPerLine env text infos, p.1 ≠ [] := by
  intro p hp
  unfold xysPerLine at hp
  obtain ⟨q, _, rfl⟩ := List.mem_map.mp hp
  simp [lineXs]

/-- C7: `closest_cursor_index_and_xy`, applied to a text and the line-info
sequence derived from it, returns `none` exactly when the text is empty
(equivalently, when the layout yields no lines); every non-empty text
resolves to some cursor index and point. -/
theorem closest_none_iff_empty_text (env : Env) (xy : Scalar × Scalar)
    (text : List Char) :
    closest_cursor_index_and_xy xy (xysPerLine env text (layoutText env text)) = none
      ↔ text = [] := by
  constructor
  · intro h
    by_contra hne
    have hinfos : layoutText env text ≠ [] := layoutText_ne_nil env text hne
    rcases hxys : xysPerLine env text (layoutText env text) with - | ⟨⟨xs0, y0⟩, rest⟩
    · have : (xysPerLine env text (layoutText env text)).length = 0 := by
        rw [hxys]
        rfl
      rw [xysPerLine_length] at this
      exact hinfos (List.length_eq_zero.mp this)
    · rw [hxys] at h
      unfold closest_cursor_index_and_xy at h
      dsimp only at h
      have hlt : closestLineAux xy.2 0 (sabs (xy.2 - y0.middle))
          (List.enumFrom 1 (rest.map Prod.snd)) < ((xs0, y0) :: rest).length := by
        apply closestLineAux_lt
        · simp
        · intro p hp
          have := fst_lt_of_mem_enumFrom _ 1 p hp
          simp only [List.length_map] at this
          simp only [List.length_cons]
          omega
      rw [List.get?_eq_get hlt] at h
      rcases hg : ((xs0, y0) :: rest).get ⟨closestLineAux xy.2 0
          (sabs (xy.2 - y0.middle)) (List.enumFrom 1 (rest.map Prod.snd)), hlt⟩
        with ⟨gxs, gy⟩
      rw [hg] at h
      have hmem : (gxs, gy) ∈ xysPerLine env text (layoutText env text) := by
        rw [hxys, ← hg]
        exact List.get_mem _ _ _
      have hne2 : gxs ≠ [] := xysPerLine_fst_ne_nil env text (layoutText env text)
        (gxs, gy) hmem
      rcases gxs with - | ⟨x0, xsr⟩
      · exact hne2 rfl
      · unfold closestXOnLine at h
        exact Option.noConfusion h
  · rintro rfl
    rfl
